import Mathlib

/-!
Shallow embedding of the alert-card lifecycle manager implemented in
`alert_service/api.py` (dataclass `AlertCard`, class `MonitoringService`,
request validation helper `_resolve_ignore_until`, and the module-level
configuration constants).

Embedding conventions:
* Wall-clock instants and durations are integers (seconds); only the
  ordered additive structure of timestamps is used, so this is faithful
  to `datetime` arithmetic; every call to `datetime.utcnow()` in the
  source becomes an explicit `now` argument of the embedded operation.
* Python floats (margin levels, thresholds) are rationals.
* `uuid.uuid4()` card identifiers are modelled by a fresh natural-number
  counter `next_id` kept in the service state.
* Python dicts keyed by card id or LP name become association lists;
  `dict.get` is `alookup`, item assignment is `assocSet`, `del` is
  `assocErase`.
* History `message`/`metadata` payloads and report request payloads are
  opaque UI text in the source and are not observed by any claim; the
  embedding keeps the observable fields (timestamp, actor, action for
  history; type, timestamp and endpoint response for reports).
* The network calls of the dispatcher happen between two separate lock
  acquisitions in the source; the embedding therefore splits each
  dispatch into the pure state transformation performed before the call
  and the one performed after it, the latter taking the endpoint
  response (and, for rechecks, the freshly fetched snapshot) as input.
-/

/-- Lifecycle states of an alert card (`AlertStatus` in the source). -/
inductive AlertStatus where
  | new
  | awaitingHITL
  | pendingRecheck
  | ignored
  | completed
  | overridden
deriving DecidableEq, Repr

/-- Terminal states: `Completed` and `Overridden`. -/
def AlertStatus.isTerminal : AlertStatus → Bool
  | .completed => true
  | .overridden => true
  | _ => false

/-- States in which the monitoring loop treats a card as an active alert:
the set `{AWAITING_HITL, PENDING_RECHECK, IGNORED}` tested in
`_process_accounts`. -/
def AlertStatus.isActive : AlertStatus → Bool
  | .awaitingHITL => true
  | .pendingRecheck => true
  | .ignored => true
  | _ => false

/-- Parsing of the string statuses crossing the HTTP boundary, as done by
the `AlertStatus(status_value)` enum constructor in `override_card`. -/
def statusOfString : String → Option AlertStatus
  | "new" => some .new
  | "awaiting_hitl" => some .awaitingHITL
  | "pending_recheck" => some .pendingRecheck
  | "ignored" => some .ignored
  | "completed" => some .completed
  | "overridden" => some .overridden
  | _ => none

/-- One LP account record from the data feed.  The source reads the keys
`"LP"` and `"Margin Utilization %"`; all other keys are opaque and are
modelled by the `rest` field. -/
structure Account where
  lp : String
  marginUtil : ℚ
  rest : List (String × String) := []
deriving DecidableEq, Repr

/-- One audit-journal event produced by `AlertCard.add_history`.  The
free-text `message` and the `metadata` dict are opaque and elided. -/
structure HistoryEntry where
  timestamp : ℤ
  actor : String
  action : String
deriving DecidableEq, Repr

/-- Response of the external margin endpoints as observed by the service:
`response.get("status")` and `response.get("thread_id")`. -/
structure EndpointResponse where
  status : String
  threadId : Option String := none
deriving DecidableEq, Repr

/-- One entry of `AlertCard.reports` (the request payload is opaque). -/
structure ReportEntry where
  rtype : String
  timestamp : ℤ
  response : EndpointResponse
deriving DecidableEq, Repr

/-- The `AlertCard` dataclass. -/
structure AlertCard where
  id : Nat
  lp_name : String
  threshold : ℚ
  hysteresis_threshold : ℚ
  created_at : ℤ
  updated_at : ℤ
  status : AlertStatus
  margin_level : ℚ
  last_margin_snapshot : Account
  reports : List ReportEntry := []
  history : List HistoryEntry := []
  thread_id : Option String := none
  ignore_until : Option ℤ := none
  last_notified_at : Option ℤ := none
  notifications_sent : Nat := 0
deriving DecidableEq, Repr

/-- Embeds `AlertCard.add_history`: append one event and bump `updated_at`. -/
def AlertCard.add_history (c : AlertCard) (now : ℤ) (actor action : String) : AlertCard :=
  { c with history := c.history ++ [⟨now, actor, action⟩], updated_at := now }

/-- Embeds `AlertCard.set_status`: set the status and bump `updated_at`. -/
def AlertCard.set_status (c : AlertCard) (s : AlertStatus) (now : ℤ) : AlertCard :=
  { c with status := s, updated_at := now }

/-- Module-level configuration constants with their source defaults. -/
structure Config where
  trigger : ℚ := 30
  resolve : ℚ := 25
  initialWindow : ℤ := 300
  initialFrequency : ℤ := 60
  cooldownFrequency : ℤ := 900
deriving DecidableEq, Repr

/-- Mutable registry state of `MonitoringService`: `self.cards`,
`self.lp_to_card`, `self.last_alerts`, plus the fresh-id counter that
stands in for `uuid.uuid4()`. -/
structure MonitoringService where
  cards : List (Nat × AlertCard) := []
  lp_to_card : List (String × Nat) := []
  last_alerts : List (String × ℤ) := []
  next_id : Nat := 0
deriving DecidableEq, Repr

/-- The freshly constructed service (`MonitoringService.__init__`). -/
def initService : MonitoringService := {}

/-- Association-list lookup (`dict.get`). -/
def alookup {α β : Type} [DecidableEq α] : List (α × β) → α → Option β
  | [], _ => none
  | (k, v) :: rest, k' => if k' = k then some v else alookup rest k'

/-- Association-list assignment (`d[k] = v`). -/
def assocSet {α β : Type} [DecidableEq α] : List (α × β) → α → β → List (α × β)
  | [], k, v => [(k, v)]
  | (k', v') :: rest, k, v =>
    if k = k' then (k, v) :: rest else (k', v') :: assocSet rest k v

/-- Association-list deletion (`del d[k]`). -/
def assocErase {α β : Type} [DecidableEq α] : List (α × β) → α → List (α × β)
  | [], _ => []
  | (k', v) :: rest, k =>
    if k' = k then assocErase rest k else (k', v) :: assocErase rest k

/-- Embeds `MonitoringService._get_card_for_lp`. -/
def getCardForLp (svc : MonitoringService) (lp : String) : Option AlertCard :=
  match alookup svc.lp_to_card lp with
  | none => none
  | some cid => alookup svc.cards cid

/-- Truthiness of `card.ignore_until and card.ignore_until > now`. -/
def ignoreStillActive (c : AlertCard) (now : ℤ) : Bool :=
  match c.ignore_until with
  | some t => decide (now < t)
  | none => false

/-- Truthiness of `not card.ignore_until or card.ignore_until <= now`. -/
def ignoreExpired (c : AlertCard) (now : ℤ) : Bool :=
  match c.ignore_until with
  | some t => decide (t ≤ now)
  | none => true

/-- Embeds `MonitoringService._create_alert_card`: build the card, append the
"created" history event, index it, and record the alert time.  The
initial-analysis dispatch scheduled at the end of the source function is
modelled as the separate operation `trigger_margin_check_complete`. -/
def create_alert_card (cfg : Config) (svc : MonitoringService) (lp : String)
    (margin : ℚ) (acct : Account) (now : ℤ) : MonitoringService :=
  let cid := svc.next_id
  let card : AlertCard := {
    id := cid
    lp_name := lp
    threshold := cfg.trigger
    hysteresis_threshold := cfg.resolve
    created_at := now
    updated_at := now
    status := .awaitingHITL
    margin_level := margin
    last_margin_snapshot := acct }
  let card := card.add_history now "system" "created"
  { svc with
    cards := assocSet svc.cards cid card
    lp_to_card := assocSet svc.lp_to_card lp cid
    last_alerts := assocSet svc.last_alerts lp now
    next_id := svc.next_id + 1 }

/-- Card-level effect of `MonitoringService._resolve_card`: set the
margin, merge the margin back into the kept snapshot, complete the card,
clear `ignore_until`, and append a "resolved" event. -/
def resolveCardFields (c : AlertCard) (margin : ℚ) (now : ℤ) : AlertCard :=
  let c := { c with
    margin_level := margin
    last_margin_snapshot := { c.last_margin_snapshot with marginUtil := margin } }
  let c := c.set_status .completed now
  let c := { c with ignore_until := none }
  c.add_history now "system" "resolved"

/-- Embeds `MonitoringService._resolve_card`, registry part included: store the
resolved card and drop the LP index entry when present. -/
def resolve_card (svc : MonitoringService) (cid : Nat) (c : AlertCard)
    (margin : ℚ) (now : ℤ) : MonitoringService :=
  let c := resolveCardFields c margin now
  let svc := { svc with cards := assocSet svc.cards cid c }
  if (alookup svc.lp_to_card c.lp_name).isSome then
    { svc with lp_to_card := assocErase svc.lp_to_card c.lp_name }
  else svc

/-- Body of the per-account loop of `MonitoringService._process_accounts`. -/
def process_account (cfg : Config) (svc : MonitoringService) (acct : Account)
    (now : ℤ) : MonitoringService :=
  let lp := acct.lp
  let margin := acct.marginUtil
  let found : Option (Nat × AlertCard) :=
    match alookup svc.lp_to_card lp with
    | none => none
    | some cid =>
      match alookup svc.cards cid with
      | none => none
      | some c => some (cid, c)
  if cfg.trigger ≤ margin then
    match found with
    | some (cid, c) =>
      if c.status = .ignored ∧ ignoreStillActive c now = true then
        let c := { c with margin_level := margin, last_margin_snapshot := acct }
        { svc with cards := assocSet svc.cards cid c }
      else if c.status.isActive = true then
        let c := { c with margin_level := margin, last_margin_snapshot := acct }
        let c :=
          if c.status = .ignored ∧ ignoreExpired c now = true then
            let c := { c with ignore_until := none }
            let c := c.set_status .awaitingHITL now
            c.add_history now "system" "ignore_expired"
          else c
        { svc with cards := assocSet svc.cards cid c }
      else
        create_alert_card cfg svc lp margin acct now
    | none => create_alert_card cfg svc lp margin acct now
  else
    match found with
    | some (cid, c) =>
      if c.status.isTerminal = true then svc
      else if margin ≤ cfg.resolve then
        resolve_card svc cid c margin now
      else
        let c := { c with margin_level := margin, last_margin_snapshot := acct }
        { svc with cards := assocSet svc.cards cid c }
    | none => svc

/-- Embeds `MonitoringService._process_accounts`: one batch, processed in order
inside a single critical section. -/
def process_accounts (cfg : Config) (svc : MonitoringService)
    (accts : List Account) (now : ℤ) : MonitoringService :=
  accts.foldl (fun s a => process_account cfg s a now) svc

/-- Per-card body of `MonitoringService._process_notifications`. -/
def notifyCard (cfg : Config) (c : AlertCard) (now : ℤ) : AlertCard :=
  if c.status = .awaitingHITL then
    if ignoreStillActive c now = true then c
    else
      let interval :=
        if cfg.initialWindow < now - c.created_at then cfg.cooldownFrequency
        else cfg.initialFrequency
      if (match c.last_notified_at with
          | none => true
          | some s => decide (interval ≤ now - s)) = true then
        let c := { c with
          last_notified_at := some now
          notifications_sent := c.notifications_sent + 1 }
        c.add_history now "system" "notification"
      else c
  else c

/-- Embeds `MonitoringService._process_notifications`: the sweep visits every
card in the registry under one lock acquisition. -/
def process_notifications (cfg : Config) (svc : MonitoringService)
    (now : ℤ) : MonitoringService :=
  { svc with cards := svc.cards.map (fun p => (p.1, notifyCard cfg p.2 now)) }

/-- Post-call half of `MonitoringService._trigger_margin_check`: the
reconciliation executed after the margin-check endpoint responds. -/
def trigger_margin_check_complete (svc : MonitoringService) (cid : Nat)
    (resp : EndpointResponse) (now : ℤ) : MonitoringService :=
  match alookup svc.cards cid with
  | none => svc
  | some c =>
    let c := { c with reports := c.reports ++ [ReportEntry.mk "initial" now resp] }
    let c := { c with thread_id :=
      match resp.threadId with
      | some t => some t
      | none => c.thread_id }
    let c :=
      if resp.status = "error" then
        (c.add_history now "system" "margin_check_failed").set_status .awaitingHITL now
      else
        c.add_history now "system" "margin_check"
    { svc with cards := assocSet svc.cards cid c }

/-- Pre-call half of `MonitoringService._trigger_margin_recheck`: move
the card to `PENDING_RECHECK` when it exists and has a thread id. -/
def trigger_margin_recheck_start (svc : MonitoringService) (cid : Nat)
    (now : ℤ) : MonitoringService :=
  match alookup svc.cards cid with
  | none => svc
  | some c =>
    match c.thread_id with
    | none => svc
    | some _ =>
      { svc with cards := assocSet svc.cards cid (c.set_status .pendingRecheck now) }

/-- Result of `MonitoringService._fetch_latest_snapshot`. -/
structure LatestSnapshot where
  account : Account
  margin_level : ℚ
deriving DecidableEq, Repr

/-- Post-call half of `MonitoringService._trigger_margin_recheck`: the
reconciliation executed after the recheck endpoint responded and the
fresh snapshot fetch returned `latest`. -/
def trigger_margin_recheck_complete (cfg : Config) (svc : MonitoringService)
    (cid : Nat) (resp : EndpointResponse) (latest : Option LatestSnapshot)
    (now : ℤ) : MonitoringService :=
  match alookup svc.cards cid with
  | none => svc
  | some c =>
    let c := { c with reports := c.reports ++ [ReportEntry.mk "recheck" now resp] }
    if resp.status = "error" then
      let c := (c.add_history now "system" "recheck_failed").set_status .awaitingHITL now
      { svc with cards := assocSet svc.cards cid c }
    else
      let c := c.add_history now "system" "recheck"
      let c :=
        match latest with
        | some ls => { c with
            margin_level := ls.margin_level
            last_margin_snapshot := ls.account }
        | none => c
      if c.margin_level ≤ cfg.resolve then
        resolve_card svc cid c c.margin_level now
      else
        let c := c.set_status .awaitingHITL now
        let c := { c with last_notified_at := some now }
        let c := c.add_history now "system" "recheck_pending"
        { svc with cards := assocSet svc.cards cid c }

/-- Embeds `MonitoringService.submit_hitl_feedback`.  The returned flag records
whether a recheck dispatch was scheduled (`_schedule_task` call). -/
def submit_hitl_feedback (svc : MonitoringService) (cid : Nat) (now : ℤ) :
    Except String (MonitoringService × Bool) :=
  match alookup svc.cards cid with
  | none => .error "not_found"
  | some c =>
    match c.thread_id with
    | none =>
      let c := (c.add_history now "system" "recheck_skipped").set_status .awaitingHITL now
      .ok ({ svc with cards := assocSet svc.cards cid c }, false)
    | some _ =>
      let c := (c.add_history now "human" "hitl_feedback").set_status .pendingRecheck now
      .ok ({ svc with cards := assocSet svc.cards cid c }, true)

/-- Embeds `MonitoringService.ignore_card`. -/
def ignore_card (svc : MonitoringService) (cid : Nat) (ignore_until now : ℤ) :
    Except String MonitoringService :=
  match alookup svc.cards cid with
  | none => .error "not_found"
  | some c =>
    let c := { c with ignore_until := some ignore_until }
    let c := c.set_status .ignored now
    let c := c.add_history now "human" "ignored"
    .ok { svc with cards := assocSet svc.cards cid c }

/-- The request validator `_resolve_ignore_until`.  `req_duration` is the
optional `duration_minutes` field; `req_until` the optional absolute
`ignore_until`; a zero duration is falsy in the source and is treated as
absent. -/
def resolveIgnoreUntil (req_duration : Option Nat) (req_until : Option ℤ)
    (now : ℤ) : Except String ℤ :=
  match req_until with
  | some t => if t ≤ now then .error "deadline_not_future" else .ok t
  | none =>
    match req_duration with
    | some m =>
      if m ≠ 0 then
        let t := now + 60 * (m : ℤ)
        if t ≤ now then .error "deadline_not_future" else .ok t
      else .error "missing_deadline"
    | none => .error "missing_deadline"

/-- The `/cards/.../ignore` route: validate the request first, and only
then touch the registry. -/
def ignore_alert_card (svc : MonitoringService) (cid : Nat)
    (req_duration : Option Nat) (req_until : Option ℤ) (now : ℤ) :
    Except String MonitoringService :=
  match resolveIgnoreUntil req_duration req_until now with
  | .error e => .error e
  | .ok t => ignore_card svc cid t now

/-- Embeds `MonitoringService.override_card`. -/
def override_card (svc : MonitoringService) (cid : Nat) (status_value : String)
    (now : ℤ) : Except String MonitoringService :=
  match alookup svc.cards cid with
  | none => .error "not_found"
  | some c =>
    match statusOfString status_value with
    | none => .error "invalid_status"
    | some st =>
      let c := c.set_status st now
      let c := c.add_history now "human" "override"
      let svc := { svc with cards := assocSet svc.cards cid c }
      if (st = .completed ∨ st = .overridden) ∧ (alookup svc.lp_to_card c.lp_name).isSome then
        .ok { svc with lp_to_card := assocErase svc.lp_to_card c.lp_name }
      else .ok svc

/-- All registry-mutating entry points, used to state trace-level
invariants: one monitoring-tick batch, the notification sweep, the two
halves of each dispatch, and the three mutating human operations. -/
inductive Op where
  | process (accts : List Account) (now : ℤ)
  | notifySweep (now : ℤ)
  | checkDone (cid : Nat) (resp : EndpointResponse) (now : ℤ)
  | recheckStart (cid : Nat) (now : ℤ)
  | recheckDone (cid : Nat) (resp : EndpointResponse) (latest : Option LatestSnapshot) (now : ℤ)
  | feedback (cid : Nat) (now : ℤ)
  | ignoreOp (cid : Nat) (untilT : ℤ) (now : ℤ)
  | overrideOp (cid : Nat) (status_value : String) (now : ℤ)
deriving DecidableEq, Repr

/-- Effect of one operation on the registry; operations that raise an
HTTP error leave the registry untouched. -/
def stepOp (cfg : Config) (svc : MonitoringService) : Op → MonitoringService
  | .process accts now => process_accounts cfg svc accts now
  | .notifySweep now => process_notifications cfg svc now
  | .checkDone cid resp now => trigger_margin_check_complete svc cid resp now
  | .recheckStart cid now => trigger_margin_recheck_start svc cid now
  | .recheckDone cid resp latest now => trigger_margin_recheck_complete cfg svc cid resp latest now
  | .feedback cid now =>
    match submit_hitl_feedback svc cid now with
    | .ok (s, _) => s
    | .error _ => svc
  | .ignoreOp cid t now =>
    match ignore_card svc cid t now with
    | .ok s => s
    | .error _ => svc
  | .overrideOp cid sv now =>
    match override_card svc cid sv now with
    | .ok s => s
    | .error _ => svc

/-- Run a sequence of operations. -/
def runOps (cfg : Config) (svc : MonitoringService) : List Op → MonitoringService
  | [] => svc
  | op :: rest => runOps cfg (stepOp cfg svc op) rest

theorem alookup_assocSet_self {α β : Type} [DecidableEq α] (l : List (α × β)) (k : α) (v : β) :
    alookup (assocSet l k v) k = some v := by
  induction l with
  | nil => simp [assocSet, alookup]
  | cons hd tl ih =>
    obtain ⟨k', v'⟩ := hd
    by_cases h : k = k'
    · subst h
      simp [assocSet, alookup]
    · simp [assocSet, alookup, h, ih]

theorem alookup_assocSet_ne {α β : Type} [DecidableEq α] (l : List (α × β)) (k : α) (v : β)
    (k'' : α) (h : k'' ≠ k) : alookup (assocSet l k v) k'' = alookup l k'' := by
  induction l with
  | nil => simp [assocSet, alookup, h]
  | cons hd tl ih =>
    obtain ⟨k', v'⟩ := hd
    by_cases hk : k = k'
    · subst hk
      simp [assocSet, alookup, h]
    · simp only [assocSet, if_neg hk, alookup]
      by_cases h2 : k'' = k'
      · simp [h2]
      · simp [h2, ih]

theorem alookup_assocErase_self {α β : Type} [DecidableEq α] (l : List (α × β)) (k : α) :
    alookup (assocErase l k) k = none := by
  induction l with
  | nil => simp [assocErase, alookup]
  | cons hd tl ih =>
    obtain ⟨k', v'⟩ := hd
    by_cases h : k' = k
    · simp [assocErase, h, ih]
    · have h2 : k ≠ k' := fun he => h he.symm
      simp [assocErase, alookup, h, h2, ih]

theorem alookup_assocErase_ne {α β : Type} [DecidableEq α] (l : List (α × β)) (k : α)
    (k'' : α) (h : k'' ≠ k) : alookup (assocErase l k) k'' = alookup l k'' := by
  induction l with
  | nil => simp [assocErase]
  | cons hd tl ih =>
    obtain ⟨k', v'⟩ := hd
    by_cases hk : k' = k
    · subst hk
      simp [assocErase, alookup, h, ih]
    · simp only [assocErase, if_neg hk, alookup]
      by_cases h2 : k'' = k'
      · simp [h2]
      · simp [h2, ih]

theorem alookup_mapSnd {α β : Type} [DecidableEq α] (f : β → β) (l : List (α × β)) (k : α) :
    alookup (l.map (fun p => (p.1, f p.2))) k = (alookup l k).map f := by
  induction l with
  | nil => simp [alookup]
  | cons hd tl ih =>
    obtain ⟨k', v'⟩ := hd
    by_cases h : k = k'
    · simp [alookup, h]
    · simp [alookup, h, ih]

/-- C3: with triggerThreshold 30 and resolveThreshold 25, the margin
sequence 28, 32, 27, 24 for one LP creates no card at 28, exactly one
card at 32 (status `AwaitingHITL`), leaves that card's status (and
everything else except margin level and snapshot) unchanged at 27, and
at 24 resolves it to `Completed` with the LP-to-card index entry
cleared. -/
theorem hysteresis_sequence_scenario :
    (process_accounts {} initService [⟨"LP1", 28, []⟩] 0).cards = [] ∧
    ((let s2 := process_accounts {}
        (process_accounts {} initService [⟨"LP1", 28, []⟩] 0) [⟨"LP1", 32, []⟩] 60
      let s3 := process_accounts {} s2 [⟨"LP1", 27, []⟩] 120
      let s4 := process_accounts {} s3 [⟨"LP1", 24, []⟩] 180
      s2.cards.length = 1 ∧
      (alookup s2.cards 0).map AlertCard.status = some .awaitingHITL ∧
      (alookup s2.cards 0).map AlertCard.margin_level = some 32 ∧
      alookup s2.lp_to_card "LP1" = some 0 ∧
      s3.cards.length = 1 ∧
      alookup s3.cards 0 = (alookup s2.cards 0).map
        (fun c => { c with margin_level := 27, last_margin_snapshot := ⟨"LP1", 27, []⟩ }) ∧
      s4.cards.length = 1 ∧
      (alookup s4.cards 0).map AlertCard.status = some .completed ∧
      (alookup s4.cards 0).map AlertCard.margin_level = some 24 ∧
      alookup s4.lp_to_card "LP1" = none)) := by
  decide

/-- C1 counterexample: an override can revive a terminal card, after
which two distinct non-terminal cards exist for the same LP at the same
instant.  A card for LP1 is created at margin 32, overridden to
`Completed` (clearing the index), a second card is created by the next
breach, and the first card is then overridden back to `AwaitingHITL`. -/
theorem single_active_card_cex :
    (let s := runOps {} initService
      [.process [⟨"LP1", 32, []⟩] 0, .overrideOp 0 "completed" 1,
       .process [⟨"LP1", 32, []⟩] 2, .overrideOp 0 "awaiting_hitl" 3]
     (alookup s.cards 0).map (fun c => (c.lp_name, c.status)) =
       some ("LP1", .awaitingHITL) ∧
     (alookup s.cards 1).map (fun c => (c.lp_name, c.status)) =
       some ("LP1", .awaitingHITL)) := by
  decide

/-- C2 counterexample: a dispatch completion handler only re-checks that
the card still exists, not that it is non-terminal.  A card overridden to
`Completed` before its initial-analysis callback runs is still mutated by
the callback: a report entry is appended and an error response resets the
status to `AwaitingHITL`. -/
theorem dispatch_terminal_cex :
    (let s := runOps {} initService
      [.process [⟨"LP1", 32, []⟩] 0, .overrideOp 0 "completed" 1]
     let s' := stepOp {} s (.checkDone 0 ⟨"error", none⟩ 2)
     (alookup s.cards 0).map AlertCard.status = some .completed ∧
     (alookup s.cards 0).map (fun c => c.reports.length) = some 0 ∧
     (alookup s'.cards 0).map AlertCard.status = some .awaitingHITL ∧
     (alookup s'.cards 0).map (fun c => c.reports.length) = some 1) := by
  decide

/-- C6 counterexample: the snapshot-only refresh performed by the
monitoring loop in the hysteresis band mutates `margin_level` (32 to 27)
without bumping `updated_at`. -/
theorem updated_at_bump_cex :
    (let s := runOps {} initService [.process [⟨"LP1", 32, []⟩] 0]
     let s' := stepOp {} s (.process [⟨"LP1", 27, []⟩] 5)
     (alookup s.cards 0).map AlertCard.margin_level = some 32 ∧
     (alookup s'.cards 0).map AlertCard.margin_level = some 27 ∧
     (alookup s.cards 0).map AlertCard.updated_at = some 0 ∧
     (alookup s'.cards 0).map AlertCard.updated_at = some 0) := by
  decide

/-- C7 counterexample: on the resolution transition `_resolve_card` keeps
the previous snapshot and only overwrites its margin-utilization field,
so `lastSnapshot` does not equal the freshly processed feed record when
any other field changed. -/
theorem snapshot_resolution_cex :
    (let s := runOps {} initService [.process [⟨"LP1", 32, [("Balance", "100")]⟩] 0]
     let s' := stepOp {} s (.process [⟨"LP1", 24, [("Balance", "50")]⟩] 5)
     (alookup s'.cards 0).map AlertCard.status = some .completed ∧
     (alookup s'.cards 0).map AlertCard.last_margin_snapshot =
       some ⟨"LP1", 24, [("Balance", "100")]⟩ ∧
     (⟨"LP1", 24, [("Balance", "100")]⟩ : Account) ≠ ⟨"LP1", 24, [("Balance", "50")]⟩) := by
  decide

/-- C8 counterexample: `override_card` never clears `ignore_until`, so
overriding an `Ignored` card to `Completed` leaves `ignore_until` set
while the status is no longer `Ignored`. -/
theorem ignore_until_unset_cex :
    (let s := runOps {} initService
      [.process [⟨"LP1", 32, []⟩] 0, .ignoreOp 0 100 1, .overrideOp 0 "completed" 5]
     (alookup s.cards 0).map AlertCard.status = some .completed ∧
     (alookup s.cards 0).map AlertCard.ignore_until = some (some 100)) := by
  decide

/-- C2 (amended): a dispatch completion handler (initial analysis or
recheck, either half) is a no-op exactly when its card is absent from the
registry; a card that is merely terminal but still present is not
protected. -/
theorem dispatch_absent_noop (cfg : Config) (svc : MonitoringService) (cid : Nat)
    (resp : EndpointResponse) (latest : Option LatestSnapshot) (t1 t2 t3 : ℤ)
    (h : alookup svc.cards cid = none) :
    trigger_margin_check_complete svc cid resp t1 = svc ∧
    trigger_margin_recheck_start svc cid t2 = svc ∧
    trigger_margin_recheck_complete cfg svc cid resp latest t3 = svc := by
  unfold trigger_margin_check_complete trigger_margin_recheck_start
    trigger_margin_recheck_complete
  simp [h]

theorem dispatch_absent_noop_witness :
    alookup initService.cards 0 = none ∧
    (trigger_margin_check_complete initService 0 ⟨"ok", none⟩ 1 = initService ∧
     trigger_margin_recheck_start initService 0 2 = initService ∧
     trigger_margin_recheck_complete {} initService 0 ⟨"ok", none⟩ none 3 = initService) :=
  ⟨by decide, dispatch_absent_noop {} initService 0 ⟨"ok", none⟩ none 1 2 3 (by decide)⟩

/-- C10: `submit_hitl_feedback` imposes no precondition on the card's
current status.  For any existing card with a thread id it records the
human feedback, moves the card to `PendingRecheck` and schedules a
recheck; for any existing card without a thread id it force-sets
`AwaitingHITL` with a system "recheck_skipped" entry and schedules
nothing — in both cases regardless of the card's current status,
including terminal or ignored ones. -/
theorem feedback_no_status_precondition (svc : MonitoringService) (cid : Nat)
    (now : ℤ) (c : AlertCard) (hc : alookup svc.cards cid = some c) :
    (∀ tid, c.thread_id = some tid →
      submit_hitl_feedback svc cid now =
        .ok ({ svc with cards := assocSet svc.cards cid ({ c with history := c.history ++ [⟨now, "human", "hitl_feedback"⟩], status := .pendingRecheck, updated_at := now }) }, true)) ∧
    (c.thread_id = none →
      submit_hitl_feedback svc cid now =
        .ok ({ svc with cards := assocSet svc.cards cid ({ c with history := c.history ++ [⟨now, "system", "recheck_skipped"⟩], status := .awaitingHITL, updated_at := now }) }, false)) := by
  constructor
  · intro tid htid
    simp [submit_hitl_feedback, hc, htid, AlertCard.add_history, AlertCard.set_status]
  · intro hnone
    simp [submit_hitl_feedback, hc, hnone, AlertCard.add_history, AlertCard.set_status]

theorem feedback_no_status_precondition_witness :
    (let c : AlertCard := { id := 0, lp_name := "LP1", threshold := 30, hysteresis_threshold := 25, created_at := 0, updated_at := 1, status := .completed, margin_level := 20, last_margin_snapshot := ⟨"LP1", 20, []⟩, thread_id := some "th1" }
     let svc : MonitoringService := { cards := [(0, c)], lp_to_card := [], last_alerts := [], next_id := 1 }
     alookup svc.cards 0 = some c ∧
     c.thread_id = some "th1" ∧
     submit_hitl_feedback svc 0 7 =
       .ok ({ svc with cards := assocSet svc.cards 0 ({ c with history := c.history ++ [⟨7, "human", "hitl_feedback"⟩], status := .pendingRecheck, updated_at := 7 }) }, true)) := by
  refine ⟨by decide, by decide, ?_⟩
  exact (feedback_no_status_precondition _ 0 7 _ (by decide)).1 "th1" (by decide)

/-- C9: the ignore route validates first and mutates only afterwards.
With neither a duration nor an absolute deadline the request fails; a
computed deadline that is not strictly in the future fails; on success
the deadline is strictly in the future (for a nonzero duration it is
`now` plus sixty seconds per minute) and the card is set to `Ignored`
with the deadline stored and one human "ignored" history entry
appended. -/
theorem ignore_validation (svc : MonitoringService) (cid : Nat)
    (d : Option Nat) (u : Option ℤ) (now : ℤ) (c : AlertCard) :
    (d = none → u = none →
      ignore_alert_card svc cid d u now = .error "missing_deadline") ∧
    (∀ t, u = some t → t ≤ now →
      ignore_alert_card svc cid d u now = .error "deadline_not_future") ∧
    (∀ t, resolveIgnoreUntil d u now = .ok t → now < t) ∧
    (∀ m, u = none → d = some m → m ≠ 0 →
      resolveIgnoreUntil d u now = .ok (now + 60 * (m : ℤ))) ∧
    (∀ t, resolveIgnoreUntil d u now = .ok t → alookup svc.cards cid = some c →
      ignore_alert_card svc cid d u now =
        .ok { svc with cards := assocSet svc.cards cid ({ c with ignore_until := some t, status := .ignored, updated_at := now, history := c.history ++ [⟨now, "human", "ignored"⟩] }) }) := by
  refine ⟨?_, ?_, ?_, ?_, ?_⟩
  · intro hd hu
    simp [ignore_alert_card, resolveIgnoreUntil, hd, hu]
  · intro t hu ht
    simp [ignore_alert_card, resolveIgnoreUntil, hu, ht]
  · intro t hok
    unfold resolveIgnoreUntil at hok
    rcases u with _ | tu
    · rcases d with _ | m
      · simp at hok
      · by_cases hm : m ≠ 0
        · simp only [if_pos hm] at hok
          by_cases hle : now + 60 * (m : ℤ) ≤ now
          · simp [hle] at hok
          · simp [hle] at hok
            rw [← hok]
            exact lt_of_not_le hle
        · simp [hm] at hok
    · by_cases hle : tu ≤ now
      · simp [hle] at hok
      · simp [hle] at hok
        rw [← hok]
        exact lt_of_not_le hle
  · intro m hu hd hm
    have h60 : ¬ (now + 60 * (m : ℤ) ≤ now) := by
      have hmpos : (0 : ℤ) < 60 * (m : ℤ) := by
        have : (0 : ℤ) < (m : ℤ) := by
          exact_mod_cast Nat.pos_of_ne_zero hm
        linarith
      linarith
    simp [resolveIgnoreUntil, hu, hd, hm, h60]
  · intro t hok hc
    unfold ignore_alert_card
    rw [hok]
    unfold ignore_card
    rw [hc]
    rfl

theorem ignore_validation_witness :
    (let c : AlertCard := { id := 0, lp_name := "LP1", threshold := 30, hysteresis_threshold := 25, created_at := 0, updated_at := 1, status := .awaitingHITL, margin_level := 40, last_margin_snapshot := ⟨"LP1", 40, []⟩ }
     let svc : MonitoringService := { cards := [(0, c)], lp_to_card := [("LP1", 0)], last_alerts := [], next_id := 1 }
     resolveIgnoreUntil (some 2) none 10 = .ok 130 ∧
     alookup svc.cards 0 = some c ∧
     ignore_alert_card svc 0 (some 2) none 10 =
       .ok { svc with cards := assocSet svc.cards 0 ({ c with ignore_until := some 130, status := .ignored, updated_at := 10, history := c.history ++ [⟨10, "human", "ignored"⟩] }) }) := by
  refine ⟨by norm_num [resolveIgnoreUntil], by decide, ?_⟩
  exact (ignore_validation _ 0 (some 2) none 10 _).2.2.2.2 130
    (by norm_num [resolveIgnoreUntil]) (by decide)

/-- Required reminder interval as worded in the notification policy:
`initialFrequency` while `now - createdAt ≤ initialWindow`, then
`cooldownFrequency`, the phase boundary anchored to creation time. -/
def requiredInterval (cfg : Config) (c : AlertCard) (now : ℤ) : ℤ :=
  if now - c.created_at ≤ cfg.initialWindow then cfg.initialFrequency
  else cfg.cooldownFrequency

/-- Fire condition as worded in the notification policy: status is
`AwaitingHITL`, `ignore_until` unset or elapsed, and `last_notified_at`
unset or at least `requiredInterval` in the past. -/
def fireCond (cfg : Config) (c : AlertCard) (now : ℤ) : Bool :=
  decide (c.status = .awaitingHITL) &&
  (match c.ignore_until with
   | none => true
   | some t => decide (t ≤ now)) &&
  (match c.last_notified_at with
   | none => true
   | some s => decide (requiredInterval cfg c now ≤ now - s))

/-- C5: the notification sweep visits every card, and fires for a card
exactly under `fireCond`; on fire it sets `last_notified_at := now`,
increments `notifications_sent` by one and appends exactly one system
"notification" history entry (bumping `updated_at`); otherwise it leaves
the card untouched. -/
theorem notification_fire_characterization (cfg : Config) (c : AlertCard) (now : ℤ) :
    (∀ (svc : MonitoringService) (cid : Nat),
      alookup (process_notifications cfg svc now).cards cid =
        (alookup svc.cards cid).map (fun x => notifyCard cfg x now)) ∧
    (fireCond cfg c now = true →
      notifyCard cfg c now = { c with last_notified_at := some now, notifications_sent := c.notifications_sent + 1, history := c.history ++ [⟨now, "system", "notification"⟩], updated_at := now }) ∧
    (fireCond cfg c now = false → notifyCard cfg c now = c) := by
  have hint : (if cfg.initialWindow < now - c.created_at then cfg.cooldownFrequency
      else cfg.initialFrequency) = requiredInterval cfg c now := by
    unfold requiredInterval
    by_cases hw : cfg.initialWindow < now - c.created_at
    · rw [if_pos hw, if_neg (not_le.mpr hw)]
    · rw [if_neg hw, if_pos (not_lt.mp hw)]
  refine ⟨?_, ?_, ?_⟩
  · intro svc cid
    unfold process_notifications
    exact alookup_mapSnd (fun x => notifyCard cfg x now) svc.cards cid
  · intro hfire
    simp only [fireCond, Bool.and_eq_true, decide_eq_true_eq] at hfire
    obtain ⟨⟨hs, hig⟩, hlast⟩ := hfire
    unfold notifyCard
    rw [if_pos hs]
    have hskip : ignoreStillActive c now = false := by
      unfold ignoreStillActive
      cases hu : c.ignore_until with
      | none => rfl
      | some t =>
        rw [hu] at hig
        simp only [decide_eq_true_eq] at hig
        simp [not_lt.mpr hig]
    rw [hskip]
    simp only [Bool.false_eq_true, if_false, hint]
    cases hl : c.last_notified_at with
    | none =>
      simp [AlertCard.add_history]
    | some s =>
      rw [hl] at hlast
      simp only [decide_eq_true_eq] at hlast
      simp [hlast, AlertCard.add_history]
  · intro hfire
    simp only [fireCond, Bool.and_eq_false_iff, decide_eq_false_iff_not] at hfire
    unfold notifyCard
    by_cases hs : c.status = .awaitingHITL
    · rw [if_pos hs]
      rcases hfire with hbad | hlast
      · rcases hbad with hbad | hig
        · exact absurd hs hbad
        · cases hu : c.ignore_until with
          | none => rw [hu] at hig; simp at hig
          | some t =>
            rw [hu] at hig
            simp only [decide_eq_false_iff_not, not_le] at hig
            have : ignoreStillActive c now = true := by
              unfold ignoreStillActive
              rw [hu]
              simp [hig]
            rw [this]
            rfl
      · cases hl : c.last_notified_at with
        | none => rw [hl] at hlast; simp at hlast
        | some s =>
          rw [hl] at hlast
          simp only [decide_eq_false_iff_not, not_le] at hlast
          by_cases hskip : ignoreStillActive c now = true
          · rw [hskip]
            rfl
          · rw [Bool.not_eq_true] at hskip
            rw [hskip]
            simp only [Bool.false_eq_true, if_false, hint]
            simp [not_le.mpr hlast]
    · rw [if_neg hs]

theorem notification_fire_characterization_witness :
    (let c : AlertCard := { id := 0, lp_name := "LP1", threshold := 30, hysteresis_threshold := 25, created_at := 0, updated_at := 0, status := .awaitingHITL, margin_level := 40, last_margin_snapshot := ⟨"LP1", 40, []⟩, last_notified_at := some 0 }
     fireCond {} c 60 = true ∧
     notifyCard {} c 60 = { c with last_notified_at := some 60, notifications_sent := c.notifications_sent + 1, history := c.history ++ [⟨60, "system", "notification"⟩], updated_at := 60 }) := by
  refine ⟨by decide, ?_⟩
  exact (notification_fire_characterization {} _ 60).2.1 (by decide)

/-- C4: completion policy of a recheck dispatch for a card still present
in the registry: exactly one report entry is appended in every case; an
error response resets the card to `AwaitingHITL` with a system
"recheck_failed" history entry; on success with a freshly fetched
snapshot, a margin at or below the resolve threshold completes the card
(and clears the LP index entry), while a higher margin returns it to
`AwaitingHITL`, sets `last_notified_at := now` and appends a system
"recheck_pending" (still pending) history entry. -/
theorem recheck_completion_policy (cfg : Config) (svc : MonitoringService)
    (cid : Nat) (c : AlertCard) (resp : EndpointResponse)
    (latest : Option LatestSnapshot) (now : ℤ)
    (hc : alookup svc.cards cid = some c) :
    ((alookup (trigger_margin_recheck_complete cfg svc cid resp latest now).cards cid).map
      AlertCard.reports = some (c.reports ++ [ReportEntry.mk "recheck" now resp])) ∧
    (resp.status = "error" →
      alookup (trigger_margin_recheck_complete cfg svc cid resp latest now).cards cid =
        some { c with reports := c.reports ++ [ReportEntry.mk "recheck" now resp], history := c.history ++ [⟨now, "system", "recheck_failed"⟩], status := .awaitingHITL, updated_at := now }) ∧
    (resp.status ≠ "error" → ∀ ls, latest = some ls →
      (ls.margin_level ≤ cfg.resolve →
        alookup (trigger_margin_recheck_complete cfg svc cid resp latest now).cards cid =
          some { c with reports := c.reports ++ [ReportEntry.mk "recheck" now resp], history := c.history ++ [⟨now, "system", "recheck"⟩] ++ [⟨now, "system", "resolved"⟩], margin_level := ls.margin_level, last_margin_snapshot := { ls.account with marginUtil := ls.margin_level }, status := .completed, updated_at := now, ignore_until := none } ∧
        alookup (trigger_margin_recheck_complete cfg svc cid resp latest now).lp_to_card c.lp_name = none) ∧
      (cfg.resolve < ls.margin_level →
        alookup (trigger_margin_recheck_complete cfg svc cid resp latest now).cards cid =
          some { c with reports := c.reports ++ [ReportEntry.mk "recheck" now resp], history := c.history ++ [⟨now, "system", "recheck"⟩] ++ [⟨now, "system", "recheck_pending"⟩], margin_level := ls.margin_level, last_margin_snapshot := ls.account, status := .awaitingHITL, updated_at := now, last_notified_at := some now })) := by
  refine ⟨?_, ?_, ?_⟩
  · by_cases herr : resp.status = "error"
    · unfold trigger_margin_recheck_complete
      rw [hc]
      simp only [if_pos herr]
      rw [alookup_assocSet_self]
      rfl
    · cases hl : latest with
      | none =>
        by_cases hres : c.margin_level ≤ cfg.resolve
        · unfold trigger_margin_recheck_complete resolve_card
          rw [hc]
          simp only [if_neg herr, hl, resolveCardFields,
            AlertCard.set_status, AlertCard.add_history, if_pos hres]
          by_cases hidx : (alookup svc.lp_to_card c.lp_name).isSome
          · rw [if_pos hidx, alookup_assocSet_self]
            rfl
          · rw [if_neg hidx, alookup_assocSet_self]
            rfl
        · unfold trigger_margin_recheck_complete
          rw [hc]
          simp only [if_neg herr, hl, AlertCard.add_history, if_neg hres]
          rw [alookup_assocSet_self]
          rfl
      | some ls =>
        by_cases hres : ls.margin_level ≤ cfg.resolve
        · unfold trigger_margin_recheck_complete resolve_card
          rw [hc]
          simp only [if_neg herr, hl, resolveCardFields,
            AlertCard.set_status, AlertCard.add_history, if_pos hres]
          by_cases hidx : (alookup svc.lp_to_card c.lp_name).isSome
          · rw [if_pos hidx, alookup_assocSet_self]
            rfl
          · rw [if_neg hidx, alookup_assocSet_self]
            rfl
        · unfold trigger_margin_recheck_complete
          rw [hc]
          simp only [if_neg herr, hl, AlertCard.add_history, if_neg hres]
          rw [alookup_assocSet_self]
          rfl
  · intro herr
    unfold trigger_margin_recheck_complete
    rw [hc]
    simp only [if_pos herr]
    rw [alookup_assocSet_self]
    rfl
  · intro herr ls hl
    constructor
    · intro hres
      unfold trigger_margin_recheck_complete resolve_card
      rw [hc]
      simp only [if_neg herr, hl, resolveCardFields,
        AlertCard.set_status, AlertCard.add_history, if_pos hres]
      by_cases hidx : (alookup svc.lp_to_card c.lp_name).isSome
      · rw [if_pos hidx]
        refine ⟨?_, ?_⟩
        · rw [alookup_assocSet_self]
        · exact alookup_assocErase_self ..
      · rw [if_neg hidx]
        refine ⟨?_, ?_⟩
        · rw [alookup_assocSet_self]
        · exact Option.not_isSome_iff_eq_none.mp hidx
    · intro hres
      unfold trigger_margin_recheck_complete
      rw [hc]
      simp only [if_neg herr, hl, AlertCard.add_history, AlertCard.set_status,
        if_neg (not_le.mpr hres)]
      rw [alookup_assocSet_self]


theorem recheck_completion_policy_witness :
    (let c : AlertCard := { id := 0, lp_name := "LP1", threshold := 30, hysteresis_threshold := 25, created_at := 0, updated_at := 1, status := .pendingRecheck, margin_level := 40, last_margin_snapshot := ⟨"LP1", 40, []⟩, thread_id := some "th1" }
     let svc : MonitoringService := { cards := [(0, c)], lp_to_card := [("LP1", 0)], last_alerts := [], next_id := 1 }
     alookup svc.cards 0 = some c ∧
     (alookup (trigger_margin_recheck_complete {} svc 0 ⟨"ok", some "th1"⟩ (some ⟨⟨"LP1", 20, []⟩, 20⟩) 9).cards 0).map AlertCard.reports = some (c.reports ++ [ReportEntry.mk "recheck" 9 ⟨"ok", some "th1"⟩])) := by
  refine ⟨by decide, ?_⟩
  exact (recheck_completion_policy {} _ 0 _ _ _ 9 (by decide)).1

/-- An active-status card (awaiting, pending recheck or ignored) is not
terminal. -/
theorem isActive_not_terminal (s : AlertStatus) (h : s.isActive = true) :
    s.isTerminal = false := by
  cases s <;> simp_all [AlertStatus.isActive, AlertStatus.isTerminal]

/-- The cards map written by `resolve_card`, independent of whether an
index entry existed. -/
theorem resolve_card_cards (svc : MonitoringService) (cid : Nat) (c : AlertCard)
    (margin : ℚ) (now : ℤ) :
    (resolve_card svc cid c margin now).cards =
      assocSet svc.cards cid (resolveCardFields c margin now) := by
  unfold resolve_card
  dsimp only
  split <;> rfl

/-- C7 (amended): after the monitoring loop processes a feed record for
an LP whose card is in an active status, the card's `margin_level`
equals the record's margin-utilization value, and `last_margin_snapshot`
equals the feed record itself — except on the resolution transition,
where the previous snapshot is kept with only its margin-utilization
field overwritten. -/
theorem snapshot_tracking_amended (cfg : Config) (svc : MonitoringService)
    (acct : Account) (now : ℤ) (cid : Nat) (c : AlertCard)
    (hlp : alookup svc.lp_to_card acct.lp = some cid)
    (hc : alookup svc.cards cid = some c)
    (hact : c.status.isActive = true) :
    ∃ c', alookup (process_account cfg svc acct now).cards cid = some c' ∧
      c'.margin_level = acct.marginUtil ∧
      ((c'.status = .completed ∧
        c'.last_margin_snapshot = { c.last_margin_snapshot with marginUtil := acct.marginUtil }) ∨
       c'.last_margin_snapshot = acct) := by
  unfold process_account
  simp only [hlp, hc]
  by_cases htrig : cfg.trigger ≤ acct.marginUtil
  · rw [if_pos htrig]
    by_cases hig : c.status = .ignored ∧ ignoreStillActive c now = true
    · rw [if_pos hig]
      refine ⟨_, alookup_assocSet_self .., rfl, Or.inr rfl⟩
    · rw [if_neg hig, if_pos hact]
      by_cases hexp : c.status = .ignored ∧
          ignoreExpired { c with margin_level := acct.marginUtil, last_margin_snapshot := acct } now = true
      · rw [if_pos hexp]
        refine ⟨_, alookup_assocSet_self .., rfl, Or.inr rfl⟩
      · rw [if_neg hexp]
        refine ⟨_, alookup_assocSet_self .., rfl, Or.inr rfl⟩
  · rw [if_neg htrig, isActive_not_terminal c.status hact]
    simp only [Bool.false_eq_true, if_false]
    by_cases hres : acct.marginUtil ≤ cfg.resolve
    · rw [if_pos hres]
      have hl2 : alookup (resolve_card svc cid c acct.marginUtil now).cards cid =
          some (resolveCardFields c acct.marginUtil now) := by
        rw [resolve_card_cards]
        exact alookup_assocSet_self ..
      exact ⟨_, hl2, rfl, Or.inl ⟨rfl, rfl⟩⟩
    · rw [if_neg hres]
      refine ⟨_, alookup_assocSet_self .., rfl, Or.inr rfl⟩

theorem snapshot_tracking_amended_witness :
    (let c : AlertCard := { id := 0, lp_name := "LP1", threshold := 30, hysteresis_threshold := 25, created_at := 0, updated_at := 1, status := .awaitingHITL, margin_level := 40, last_margin_snapshot := ⟨"LP1", 40, [("Balance", "100")]⟩ }
     let svc : MonitoringService := { cards := [(0, c)], lp_to_card := [("LP1", 0)], last_alerts := [], next_id := 1 }
     alookup svc.lp_to_card "LP1" = some 0 ∧
     alookup svc.cards 0 = some c ∧
     c.status.isActive = true ∧
     (∃ c', alookup (process_account {} svc ⟨"LP1", 24, [("Balance", "50")]⟩ 9).cards 0 = some c' ∧
       c'.margin_level = 24 ∧
       ((c'.status = .completed ∧
         c'.last_margin_snapshot = { c.last_margin_snapshot with marginUtil := 24 }) ∨
        c'.last_margin_snapshot = ⟨"LP1", 24, [("Balance", "50")]⟩))) := by
  refine ⟨by decide, by decide, by decide, ?_⟩
  exact snapshot_tracking_amended {} _ ⟨"LP1", 24, [("Balance", "50")]⟩ 9 0 _
    (by decide) (by decide) (by decide)

/-- The `ignore_until` hygiene invariant on a cards map: any card whose
status is not `Ignored` has no `ignore_until` set. -/
def IgnoreInvL (l : List (Nat × AlertCard)) : Prop :=
  ∀ cid c, alookup l cid = some c → c.status ≠ .ignored → c.ignore_until = none

theorem ignoreInvL_assocSet (l : List (Nat × AlertCard)) (cid : Nat) (c' : AlertCard)
    (hInv : IgnoreInvL l) (hc' : c'.status ≠ .ignored → c'.ignore_until = none) :
    IgnoreInvL (assocSet l cid c') := by
  intro cid2 c2 h2 hs2
  by_cases he : cid2 = cid
  · subst he
    rw [alookup_assocSet_self] at h2
    cases h2
    exact hc' hs2
  · rw [alookup_assocSet_ne _ _ _ _ he] at h2
    exact hInv _ _ h2 hs2

theorem alookup_notify (cfg : Config) (l : List (Nat × AlertCard)) (now : ℤ) (k : Nat) :
    alookup (l.map (fun p => (p.1, notifyCard cfg p.2 now))) k =
      (alookup l k).map (fun x => notifyCard cfg x now) :=
  alookup_mapSnd (fun x => notifyCard cfg x now) l k

theorem notifyCard_status (cfg : Config) (c : AlertCard) (now : ℤ) :
    (notifyCard cfg c now).status = c.status := by
  unfold notifyCard AlertCard.add_history
  split
  · split
    · rfl
    · dsimp only
      split <;> split <;> rfl
  · rfl

theorem notifyCard_ignore_until (cfg : Config) (c : AlertCard) (now : ℤ) :
    (notifyCard cfg c now).ignore_until = c.ignore_until := by
  unfold notifyCard AlertCard.add_history
  split
  · split
    · rfl
    · dsimp only
      split <;> split <;> rfl
  · rfl

theorem notifyCard_lp_name (cfg : Config) (c : AlertCard) (now : ℤ) :
    (notifyCard cfg c now).lp_name = c.lp_name := by
  unfold notifyCard AlertCard.add_history
  split
  · split
    · rfl
    · dsimp only
      split <;> split <;> rfl
  · rfl

theorem notifyCard_created_at (cfg : Config) (c : AlertCard) (now : ℤ) :
    (notifyCard cfg c now).created_at = c.created_at := by
  unfold notifyCard AlertCard.add_history
  split
  · split
    · rfl
    · dsimp only
      split <;> split <;> rfl
  · rfl

theorem notifyCard_updated_at (cfg : Config) (c : AlertCard) (now : ℤ) :
    (notifyCard cfg c now).updated_at = c.updated_at ∨
      (notifyCard cfg c now).updated_at = now := by
  unfold notifyCard AlertCard.add_history
  split
  · split
    · exact Or.inl rfl
    · dsimp only
      split <;> split <;> first
      | exact Or.inl rfl
      | exact Or.inr rfl
  · exact Or.inl rfl

/-- C8 (amended): `ignore_until` is unset on every non-`Ignored` card as
long as cards are touched only by the monitoring loop (snapshot
processing and notification sweep) and by `ignore_card` itself; the
override, feedback and dispatch-reconciliation paths do not maintain
this invariant. -/
theorem ignore_until_monitoring_amended :
    (∀ cfg svc acct now, IgnoreInvL svc.cards →
      IgnoreInvL (process_account cfg svc acct now).cards) ∧
    (∀ cfg svc now, IgnoreInvL svc.cards →
      IgnoreInvL (process_notifications cfg svc now).cards) ∧
    (∀ svc cid t now svc', ignore_card svc cid t now = .ok svc' →
      IgnoreInvL svc.cards → IgnoreInvL svc'.cards) := by
  refine ⟨?_, ?_, ?_⟩
  · intro cfg svc acct now hInv
    unfold process_account
    cases hlp : alookup svc.lp_to_card acct.lp with
    | none =>
      simp only [hlp]
      by_cases htrig : cfg.trigger ≤ acct.marginUtil
      · rw [if_pos htrig]
        unfold create_alert_card AlertCard.add_history
        dsimp only
        exact ignoreInvL_assocSet _ _ _ hInv (fun _ => rfl)
      · rw [if_neg htrig]
        exact hInv
    | some cid =>
      cases hcc : alookup svc.cards cid with
      | none =>
        simp only [hlp, hcc]
        by_cases htrig : cfg.trigger ≤ acct.marginUtil
        · rw [if_pos htrig]
          unfold create_alert_card AlertCard.add_history
          dsimp only
          exact ignoreInvL_assocSet _ _ _ hInv (fun _ => rfl)
        · rw [if_neg htrig]
          exact hInv
      | some c =>
        simp only [hlp, hcc]
        by_cases htrig : cfg.trigger ≤ acct.marginUtil
        · rw [if_pos htrig]
          by_cases hig : c.status = .ignored ∧ ignoreStillActive c now = true
          · rw [if_pos hig]
            refine ignoreInvL_assocSet _ _ _ hInv ?_
            intro hs2
            exact absurd hig.1 hs2
          · rw [if_neg hig]
            by_cases hact : c.status.isActive = true
            · rw [if_pos hact]
              by_cases hexp : c.status = .ignored ∧
                  ignoreExpired { c with margin_level := acct.marginUtil, last_margin_snapshot := acct } now = true
              · rw [if_pos hexp]
                refine ignoreInvL_assocSet _ _ _ hInv ?_
                intro _
                rfl
              · rw [if_neg hexp]
                refine ignoreInvL_assocSet _ _ _ hInv ?_
                intro hs2
                exact hInv cid c hcc hs2
            · simp only [hact, Bool.false_eq_true, if_false]
              unfold create_alert_card AlertCard.add_history
              dsimp only
              exact ignoreInvL_assocSet _ _ _ hInv (fun _ => rfl)
        · rw [if_neg htrig]
          by_cases hterm : c.status.isTerminal = true
          · rw [hterm]
            simp only [if_true]
            exact hInv
          · simp only [hterm, Bool.false_eq_true, if_false]
            by_cases hres : acct.marginUtil ≤ cfg.resolve
            · rw [if_pos hres]
              intro cid2 c2 h2 hs2
              rw [resolve_card_cards] at h2
              exact ignoreInvL_assocSet _ _ _ hInv (fun _ => rfl) _ _ h2 hs2
            · rw [if_neg hres]
              refine ignoreInvL_assocSet _ _ _ hInv ?_
              intro hs2
              exact hInv cid c hcc hs2
  · intro cfg svc now hInv cid2 c2 h2 hs2
    unfold process_notifications at h2
    dsimp only at h2
    rw [alookup_notify] at h2
    rcases Option.map_eq_some'.mp h2 with ⟨c0, hc0, hmap⟩
    subst hmap
    rw [notifyCard_ignore_until]
    rw [notifyCard_status] at hs2
    exact hInv _ _ hc0 hs2
  · intro svc cid t now svc' hok hInv
    unfold ignore_card at hok
    cases hcc : alookup svc.cards cid with
    | none =>
      rw [hcc] at hok
      cases hok
    | some c =>
      rw [hcc] at hok
      dsimp only at hok
      cases hok
      refine ignoreInvL_assocSet _ _ _ hInv ?_
      intro hs2
      exact absurd rfl hs2

theorem ignore_until_monitoring_amended_witness :
    IgnoreInvL initService.cards ∧
    IgnoreInvL (process_account {} initService ⟨"LP1", 32, []⟩ 0).cards := by
  have h0 : IgnoreInvL initService.cards := by
    intro cid c h
    simp [initService, alookup] at h
  exact ⟨h0, ignore_until_monitoring_amended.1 {} initService ⟨"LP1", 32, []⟩ 0 h0⟩

/-- Timestamp carried by an operation (its `datetime.utcnow()` reading). -/
def opTime : Op → ℤ
  | .process _ now => now
  | .notifySweep now => now
  | .checkDone _ _ now => now
  | .recheckStart _ now => now
  | .recheckDone _ _ _ now => now
  | .feedback _ now => now
  | .ignoreOp _ _ now => now
  | .overrideOp _ _ now => now

/-- Clock sanity of a trace: operation timestamps never decrease. -/
def timesMono : ℤ → List Op → Bool
  | _, [] => true
  | t, op :: rest => decide (t ≤ opTime op) && timesMono (opTime op) rest

/-- Creation-before-update invariant on a cards map. -/
def WellTimedL (l : List (Nat × AlertCard)) : Prop :=
  ∀ cid c, alookup l cid = some c → c.created_at ≤ c.updated_at

/-- All creation times in a cards map are at most `t`. -/
def CreatedLB (l : List (Nat × AlertCard)) (t : ℤ) : Prop :=
  ∀ cid c, alookup l cid = some c → c.created_at ≤ t

theorem wtL_set (l : List (Nat × AlertCard)) (cid : Nat) (c' : AlertCard)
    (hw : WellTimedL l) (hc' : c'.created_at ≤ c'.updated_at) :
    WellTimedL (assocSet l cid c') := by
  intro cid2 c2 h2
  by_cases he : cid2 = cid
  · subst he
    rw [alookup_assocSet_self] at h2
    cases h2
    exact hc'
  · rw [alookup_assocSet_ne _ _ _ _ he] at h2
    exact hw _ _ h2

theorem lbL_set (l : List (Nat × AlertCard)) (cid : Nat) (c' : AlertCard) (t : ℤ)
    (hl : CreatedLB l t) (hc' : c'.created_at ≤ t) :
    CreatedLB (assocSet l cid c') t := by
  intro cid2 c2 h2
  by_cases he : cid2 = cid
  · subst he
    rw [alookup_assocSet_self] at h2
    cases h2
    exact hc'
  · rw [alookup_assocSet_ne _ _ _ _ he] at h2
    exact hl _ _ h2

theorem process_account_times (cfg : Config) (svc : MonitoringService)
    (acct : Account) (now : ℤ)
    (hw : WellTimedL svc.cards) (hlb : CreatedLB svc.cards now) :
    WellTimedL (process_account cfg svc acct now).cards ∧
      CreatedLB (process_account cfg svc acct now).cards now := by
  unfold process_account
  cases hlp : alookup svc.lp_to_card acct.lp with
  | none =>
    simp only [hlp]
    by_cases htrig : cfg.trigger ≤ acct.marginUtil
    · rw [if_pos htrig]
      unfold create_alert_card AlertCard.add_history
      dsimp only
      exact ⟨wtL_set _ _ _ hw le_rfl, lbL_set _ _ _ _ hlb le_rfl⟩
    · rw [if_neg htrig]
      exact ⟨hw, hlb⟩
  | some cid =>
    cases hcc : alookup svc.cards cid with
    | none =>
      simp only [hlp, hcc]
      by_cases htrig : cfg.trigger ≤ acct.marginUtil
      · rw [if_pos htrig]
        unfold create_alert_card AlertCard.add_history
        dsimp only
        exact ⟨wtL_set _ _ _ hw le_rfl, lbL_set _ _ _ _ hlb le_rfl⟩
      · rw [if_neg htrig]
        exact ⟨hw, hlb⟩
    | some c =>
      simp only [hlp, hcc]
      by_cases htrig : cfg.trigger ≤ acct.marginUtil
      · rw [if_pos htrig]
        by_cases hig : c.status = .ignored ∧ ignoreStillActive c now = true
        · rw [if_pos hig]
          exact ⟨wtL_set _ _ _ hw (hw cid c hcc), lbL_set _ _ _ _ hlb (hlb cid c hcc)⟩
        · rw [if_neg hig]
          by_cases hact : c.status.isActive = true
          · rw [if_pos hact]
            by_cases hexp : c.status = .ignored ∧
                ignoreExpired { c with margin_level := acct.marginUtil, last_margin_snapshot := acct } now = true
            · rw [if_pos hexp]
              unfold AlertCard.add_history AlertCard.set_status
              dsimp only
              exact ⟨wtL_set _ _ _ hw (hlb cid c hcc), lbL_set _ _ _ _ hlb (hlb cid c hcc)⟩
            · rw [if_neg hexp]
              exact ⟨wtL_set _ _ _ hw (hw cid c hcc), lbL_set _ _ _ _ hlb (hlb cid c hcc)⟩
          · simp only [hact, Bool.false_eq_true, if_false]
            unfold create_alert_card AlertCard.add_history
            dsimp only
            exact ⟨wtL_set _ _ _ hw le_rfl, lbL_set _ _ _ _ hlb le_rfl⟩
      · rw [if_neg htrig]
        by_cases hterm : c.status.isTerminal = true
        · rw [hterm]
          simp only [if_true]
          exact ⟨hw, hlb⟩
        · simp only [hterm, Bool.false_eq_true, if_false]
          by_cases hres : acct.marginUtil ≤ cfg.resolve
          · rw [if_pos hres]
            constructor
            · intro cid2 c2 h2
              rw [resolve_card_cards] at h2
              refine wtL_set _ _ _ hw ?_ _ _ h2
              exact hlb cid c hcc
            · intro cid2 c2 h2
              rw [resolve_card_cards] at h2
              refine lbL_set _ _ _ _ hlb ?_ _ _ h2
              exact hlb cid c hcc
          · rw [if_neg hres]
            exact ⟨wtL_set _ _ _ hw (hw cid c hcc), lbL_set _ _ _ _ hlb (hlb cid c hcc)⟩

theorem process_accounts_times (cfg : Config) (accts : List Account)
    (svc : MonitoringService) (now : ℤ)
    (hw : WellTimedL svc.cards) (hlb : CreatedLB svc.cards now) :
    WellTimedL (process_accounts cfg svc accts now).cards ∧
      CreatedLB (process_accounts cfg svc accts now).cards now := by
  induction accts generalizing svc with
  | nil => exact ⟨hw, hlb⟩
  | cons a rest ih =>
    have h1 := process_account_times cfg svc a now hw hlb
    exact ih (process_account cfg svc a now) h1.1 h1.2

theorem override_card_cards (svc : MonitoringService) (cid : Nat) (sv : String)
    (now : ℤ) (c : AlertCard) (st : AlertStatus) (svc' : MonitoringService)
    (hcc : alookup svc.cards cid = some c) (hst : statusOfString sv = some st)
    (hok : override_card svc cid sv now = .ok svc') :
    svc'.cards = assocSet svc.cards cid
      ((c.set_status st now).add_history now "human" "override") := by
  unfold override_card at hok
  rw [hcc] at hok
  simp only [hst] at hok
  split at hok <;> cases hok <;> rfl

theorem step_times (cfg : Config) (svc : MonitoringService) (op : Op)
    (hw : WellTimedL svc.cards) (hlb : CreatedLB svc.cards (opTime op)) :
    WellTimedL (stepOp cfg svc op).cards ∧
      CreatedLB (stepOp cfg svc op).cards (opTime op) := by
  cases op with
  | process accts now =>
    exact process_accounts_times cfg accts svc now hw hlb
  | notifySweep now =>
    constructor
    · intro cid c h
      unfold stepOp process_notifications at h
      dsimp only at h
      rw [alookup_notify] at h
      rcases Option.map_eq_some'.mp h with ⟨c0, hc0, hmap⟩
      subst hmap
      rcases notifyCard_updated_at cfg c0 now with hu | hu
      · rw [notifyCard_created_at, hu]
        exact hw cid c0 hc0
      · rw [notifyCard_created_at, hu]
        exact hlb cid c0 hc0
    · intro cid c h
      unfold stepOp process_notifications at h
      dsimp only at h
      rw [alookup_notify] at h
      rcases Option.map_eq_some'.mp h with ⟨c0, hc0, hmap⟩
      subst hmap
      rw [notifyCard_created_at]
      exact hlb cid c0 hc0
  | checkDone cid resp now =>
    unfold stepOp trigger_margin_check_complete
    cases hcc : alookup svc.cards cid with
    | none =>
      simp only [hcc]
      exact ⟨hw, hlb⟩
    | some c =>
      simp only [hcc]
      constructor
      · apply wtL_set _ _ _ hw
        unfold AlertCard.add_history AlertCard.set_status
        split
        · exact hlb cid c hcc
        · exact hlb cid c hcc
      · apply lbL_set _ _ _ _ hlb
        unfold AlertCard.add_history AlertCard.set_status
        split
        · exact hlb cid c hcc
        · exact hlb cid c hcc
  | recheckStart cid now =>
    unfold stepOp trigger_margin_recheck_start
    cases hcc : alookup svc.cards cid with
    | none =>
      simp only [hcc]
      exact ⟨hw, hlb⟩
    | some c =>
      simp only [hcc]
      cases ht : c.thread_id with
      | none => exact ⟨hw, hlb⟩
      | some tid =>
        exact ⟨wtL_set _ _ _ hw (hlb cid c hcc), lbL_set _ _ _ _ hlb (hlb cid c hcc)⟩
  | recheckDone cid resp latest now =>
    unfold stepOp trigger_margin_recheck_complete
    cases hcc : alookup svc.cards cid with
    | none =>
      simp only [hcc]
      exact ⟨hw, hlb⟩
    | some c =>
      simp only [hcc]
      by_cases herr : resp.status = "error"
      · rw [if_pos herr]
        exact ⟨wtL_set _ _ _ hw (hlb cid c hcc), lbL_set _ _ _ _ hlb (hlb cid c hcc)⟩
      · rw [if_neg herr]
        cases hl : latest with
        | none =>
          split
          · constructor
            · intro cid2 c2 h2
              rw [resolve_card_cards] at h2
              refine wtL_set _ _ _ hw ?_ _ _ h2
              exact hlb cid c hcc
            · intro cid2 c2 h2
              rw [resolve_card_cards] at h2
              refine lbL_set _ _ _ _ hlb ?_ _ _ h2
              exact hlb cid c hcc
          · exact ⟨wtL_set _ _ _ hw (hlb cid c hcc), lbL_set _ _ _ _ hlb (hlb cid c hcc)⟩
        | some ls =>
          split
          · constructor
            · intro cid2 c2 h2
              rw [resolve_card_cards] at h2
              refine wtL_set _ _ _ hw ?_ _ _ h2
              exact hlb cid c hcc
            · intro cid2 c2 h2
              rw [resolve_card_cards] at h2
              refine lbL_set _ _ _ _ hlb ?_ _ _ h2
              exact hlb cid c hcc
          · exact ⟨wtL_set _ _ _ hw (hlb cid c hcc), lbL_set _ _ _ _ hlb (hlb cid c hcc)⟩
  | feedback cid now =>
    unfold stepOp submit_hitl_feedback
    cases hcc : alookup svc.cards cid with
    | none =>
      simp only [hcc]
      exact ⟨hw, hlb⟩
    | some c =>
      simp only [hcc]
      cases ht : c.thread_id with
      | none =>
        exact ⟨wtL_set _ _ _ hw (hlb cid c hcc), lbL_set _ _ _ _ hlb (hlb cid c hcc)⟩
      | some tid =>
        exact ⟨wtL_set _ _ _ hw (hlb cid c hcc), lbL_set _ _ _ _ hlb (hlb cid c hcc)⟩
  | ignoreOp cid t now =>
    unfold stepOp ignore_card
    cases hcc : alookup svc.cards cid with
    | none =>
      simp only [hcc]
      exact ⟨hw, hlb⟩
    | some c =>
      simp only [hcc]
      exact ⟨wtL_set _ _ _ hw (hlb cid c hcc), lbL_set _ _ _ _ hlb (hlb cid c hcc)⟩
  | overrideOp cid sv now =>
    cases hov : override_card svc cid sv now with
    | error e =>
      have hid : stepOp cfg svc (.overrideOp cid sv now) = svc := by
        simp only [stepOp, hov]
      rw [hid]
      exact ⟨hw, hlb⟩
    | ok svc2 =>
      have hid : stepOp cfg svc (.overrideOp cid sv now) = svc2 := by
        simp only [stepOp, hov]
      rw [hid]
      cases hcc : alookup svc.cards cid with
      | none =>
        unfold override_card at hov
        rw [hcc] at hov
        cases hov
      | some c =>
        cases hst : statusOfString sv with
        | none =>
          unfold override_card at hov
          rw [hcc] at hov
          simp only [hst] at hov
          cases hov
        | some st =>
          have hcards := override_card_cards svc cid sv now c st svc2 hcc hst hov
          rw [hcards]
          exact ⟨wtL_set _ _ _ hw (hlb cid c hcc), lbL_set _ _ _ _ hlb (hlb cid c hcc)⟩

theorem runOps_times (cfg : Config) :
    ∀ (ops : List Op) (svc : MonitoringService) (t : ℤ),
      WellTimedL svc.cards → CreatedLB svc.cards t → timesMono t ops = true →
      WellTimedL (runOps cfg svc ops).cards := by
  intro ops
  induction ops with
  | nil =>
    intro svc t hw _ _
    exact hw
  | cons op rest ih =>
    intro svc t hw hlb hmono
    simp only [timesMono, Bool.and_eq_true, decide_eq_true_eq] at hmono
    have hlb' : CreatedLB svc.cards (opTime op) :=
      fun cid c h => le_trans (hlb cid c h) hmono.1
    have hstep := step_times cfg svc op hw hlb'
    exact ih (stepOp cfg svc op) (opTime op) hstep.1 hstep.2 hmono.2

/-- C6 (amended): `set_status` and `add_history` always bump
`updated_at` to the operation timestamp, and `created_at ≤ updated_at`
holds for every card after any trace of operations with non-decreasing
timestamps — but snapshot-only refreshes (see the counterexample) leave
`updated_at` unchanged, so not every mutation bumps it. -/
theorem updated_at_amended :
    (∀ (c : AlertCard) (now : ℤ) (actor action : String) (s : AlertStatus),
      (c.add_history now actor action).updated_at = now ∧
      (c.set_status s now).updated_at = now) ∧
    (∀ (cfg : Config) (t0 : ℤ) (ops : List Op), timesMono t0 ops = true →
      WellTimedL (runOps cfg initService ops).cards) := by
  constructor
  · intro c now actor action s
    exact ⟨rfl, rfl⟩
  · intro cfg t0 ops hmono
    refine runOps_times cfg ops initService t0 ?_ ?_ hmono
    · intro cid c h
      simp [initService, alookup] at h
    · intro cid c h
      simp [initService, alookup] at h

theorem updated_at_amended_witness :
    timesMono 0 [Op.process [⟨"LP1", 32, []⟩] 1, Op.notifySweep 2,
      Op.overrideOp 0 "completed" 3] = true ∧
    WellTimedL (runOps {} initService [Op.process [⟨"LP1", 32, []⟩] 1,
      Op.notifySweep 2, Op.overrideOp 0 "completed" 3]).cards :=
  ⟨by decide, updated_at_amended.2 {} 0 _ (by decide)⟩

/-- A card-scoped operation is "index-respecting" when the card it
targets (if present) is the one currently indexed for its LP. -/
def targetsIndexed (svc : MonitoringService) (cid : Nat) : Bool :=
  match alookup svc.cards cid with
  | none => true
  | some c => decide (alookup svc.lp_to_card c.lp_name = some cid)

/-- Safety side condition under which the single-active-card invariant
is preserved: card-scoped operations target the indexed card, and an
override never sets the synthetic `new` status. -/
def opSafe (svc : MonitoringService) : Op → Bool
  | .process _ _ => true
  | .notifySweep _ => true
  | .checkDone cid _ _ => targetsIndexed svc cid
  | .recheckStart cid _ => targetsIndexed svc cid
  | .recheckDone cid _ _ _ => targetsIndexed svc cid
  | .feedback cid _ => targetsIndexed svc cid
  | .ignoreOp cid _ _ => targetsIndexed svc cid
  | .overrideOp cid sv _ =>
    targetsIndexed svc cid && decide (statusOfString sv ≠ some AlertStatus.new)

/-- All operations of a trace are safe, each in the state it runs in. -/
def safeTrace (cfg : Config) : MonitoringService → List Op → Bool
  | _, [] => true
  | svc, op :: rest => opSafe svc op && safeTrace cfg (stepOp cfg svc op) rest

/-- Registry well-formedness: every index entry points to an existing
card of that LP in an active status, every non-terminal card is in an
active status and indexed under its LP, and ids at or above the fresh
counter are unused. -/
def RegistryInv (svc : MonitoringService) : Prop :=
  (∀ lp cid, alookup svc.lp_to_card lp = some cid →
    ∃ c, alookup svc.cards cid = some c ∧ c.lp_name = lp ∧ c.status.isActive = true) ∧
  (∀ cid c, alookup svc.cards cid = some c → c.status.isTerminal = false →
    c.status.isActive = true ∧ alookup svc.lp_to_card c.lp_name = some cid) ∧
  (∀ i, svc.next_id ≤ i → alookup svc.cards i = none)

/-- At most one non-terminal card per LP. -/
def SingleActivePerLp (svc : MonitoringService) : Prop :=
  ∀ cid1 cid2 c1 c2, alookup svc.cards cid1 = some c1 →
    alookup svc.cards cid2 = some c2 → c1.lp_name = c2.lp_name →
    c1.status.isTerminal = false → c2.status.isTerminal = false → cid1 = cid2

theorem inv_single (svc : MonitoringService) (hInv : RegistryInv svc) :
    SingleActivePerLp svc := by
  intro cid1 cid2 c1 c2 h1 h2 hlp ht1 ht2
  have a1 := (hInv.2.1 cid1 c1 h1 ht1).2
  have a2 := (hInv.2.1 cid2 c2 h2 ht2).2
  rw [hlp] at a1
  exact Option.some.inj (a1.symm.trans a2)

theorem inv_update (svc : MonitoringService) (cid : Nat) (c c' : AlertCard)
    (hInv : RegistryInv svc) (hc : alookup svc.cards cid = some c)
    (hidx : alookup svc.lp_to_card c.lp_name = some cid)
    (hlp : c'.lp_name = c.lp_name) (hact : c'.status.isActive = true) :
    RegistryInv { svc with cards := assocSet svc.cards cid c' } := by
  obtain ⟨h1, h2, h3⟩ := hInv
  refine ⟨?_, ?_, ?_⟩
  · intro lp cid2 hl
    rcases h1 lp cid2 hl with ⟨c2, hc2, hlp2, hact2⟩
    by_cases he : cid2 = cid
    · subst he
      rw [hc] at hc2
      cases hc2
      exact ⟨c', by rw [alookup_assocSet_self], by rw [hlp, hlp2], hact⟩
    · exact ⟨c2, by rw [alookup_assocSet_ne _ _ _ _ he]; exact hc2, hlp2, hact2⟩
  · intro cid2 c2 hc2 hterm2
    by_cases he : cid2 = cid
    · subst he
      rw [alookup_assocSet_self] at hc2
      cases hc2
      refine ⟨hact, ?_⟩
      rw [hlp]
      exact hidx
    · rw [alookup_assocSet_ne _ _ _ _ he] at hc2
      exact h2 cid2 c2 hc2 hterm2
  · intro i hi
    have hne : i ≠ cid := by
      intro he
      rw [← he] at hc
      rw [h3 i hi] at hc
      cases hc
    rw [alookup_assocSet_ne _ _ _ _ hne]
    exact h3 i hi

theorem inv_terminal (svc : MonitoringService) (cid : Nat) (c c' : AlertCard)
    (hInv : RegistryInv svc) (hc : alookup svc.cards cid = some c)
    (hidx : alookup svc.lp_to_card c.lp_name = some cid)
    (_hlp : c'.lp_name = c.lp_name) (hterm : c'.status.isTerminal = true) :
    RegistryInv { svc with cards := assocSet svc.cards cid c', lp_to_card := assocErase svc.lp_to_card c.lp_name } := by
  obtain ⟨h1, h2, h3⟩ := hInv
  refine ⟨?_, ?_, ?_⟩
  · intro lp cid2 hl
    have hlpne : lp ≠ c.lp_name := by
      intro he
      subst he
      rw [alookup_assocErase_self] at hl
      cases hl
    rw [alookup_assocErase_ne _ _ _ hlpne] at hl
    rcases h1 lp cid2 hl with ⟨c2, hc2, hlp2, hact2⟩
    have hne : cid2 ≠ cid := by
      intro he
      subst he
      rw [hc] at hc2
      cases hc2
      exact hlpne hlp2.symm
    exact ⟨c2, by rw [alookup_assocSet_ne _ _ _ _ hne]; exact hc2, hlp2, hact2⟩
  · intro cid2 c2 hc2 hterm2
    by_cases he : cid2 = cid
    · subst he
      rw [alookup_assocSet_self] at hc2
      cases hc2
      rw [hterm] at hterm2
      cases hterm2
    · rw [alookup_assocSet_ne _ _ _ _ he] at hc2
      obtain ⟨hact2, hidx2⟩ := h2 cid2 c2 hc2 hterm2
      refine ⟨hact2, ?_⟩
      have hlpne : c2.lp_name ≠ c.lp_name := by
        intro heq
        rw [heq] at hidx2
        rw [hidx] at hidx2
        exact he (Option.some.inj hidx2).symm
      rw [alookup_assocErase_ne _ _ _ hlpne]
      exact hidx2
  · intro i hi
    have hne : i ≠ cid := by
      intro he
      rw [← he] at hc
      rw [h3 i hi] at hc
      cases hc
    rw [alookup_assocSet_ne _ _ _ _ hne]
    exact h3 i hi

theorem inv_create (cfg : Config) (svc : MonitoringService) (lp : String)
    (margin : ℚ) (acct : Account) (now : ℤ) (hInv : RegistryInv svc)
    (hnone : alookup svc.lp_to_card lp = none) :
    RegistryInv (create_alert_card cfg svc lp margin acct now) := by
  obtain ⟨h1, h2, h3⟩ := hInv
  unfold create_alert_card AlertCard.add_history
  dsimp only
  refine ⟨?_, ?_, ?_⟩
  · intro lp2 cid2 hl
    by_cases he : lp2 = lp
    · subst he
      rw [alookup_assocSet_self] at hl
      cases hl
      exact ⟨_, alookup_assocSet_self .., rfl, rfl⟩
    · rw [alookup_assocSet_ne _ _ _ _ he] at hl
      rcases h1 lp2 cid2 hl with ⟨c2, hc2, hlp2, hact2⟩
      have hne : cid2 ≠ svc.next_id := by
        intro heq
        rw [heq] at hc2
        rw [h3 svc.next_id le_rfl] at hc2
        cases hc2
      exact ⟨c2, by rw [alookup_assocSet_ne _ _ _ _ hne]; exact hc2, hlp2, hact2⟩
  · intro cid2 c2 hc2 hterm2
    by_cases he : cid2 = svc.next_id
    · subst he
      rw [alookup_assocSet_self] at hc2
      cases hc2
      exact ⟨rfl, alookup_assocSet_self ..⟩
    · rw [alookup_assocSet_ne _ _ _ _ he] at hc2
      obtain ⟨hact2, hidx2⟩ := h2 cid2 c2 hc2 hterm2
      refine ⟨hact2, ?_⟩
      have hlpne : c2.lp_name ≠ lp := by
        intro heq
        rw [heq] at hidx2
        rw [hnone] at hidx2
        cases hidx2
      rw [alookup_assocSet_ne _ _ _ _ hlpne]
      exact hidx2
  · intro i hi
    have hi2 : svc.next_id + 1 ≤ i := hi
    have hne : i ≠ svc.next_id := by omega
    rw [alookup_assocSet_ne _ _ _ _ hne]
    exact h3 i (by omega)

theorem inv_notify (cfg : Config) (svc : MonitoringService) (now : ℤ)
    (hInv : RegistryInv svc) : RegistryInv (process_notifications cfg svc now) := by
  obtain ⟨h1, h2, h3⟩ := hInv
  refine ⟨?_, ?_, ?_⟩
  · intro lp cid2 hl
    rcases h1 lp cid2 hl with ⟨c2, hc2, hlp2, hact2⟩
    refine ⟨notifyCard cfg c2 now, ?_, ?_, ?_⟩
    · show alookup (svc.cards.map (fun p => (p.1, notifyCard cfg p.2 now))) cid2 = _
      rw [alookup_notify, hc2]
      rfl
    · rw [notifyCard_lp_name]
      exact hlp2
    · rw [notifyCard_status]
      exact hact2
  · intro cid2 c2 hc2 hterm2
    have hc2' : alookup (svc.cards.map (fun p => (p.1, notifyCard cfg p.2 now))) cid2 = some c2 := hc2
    rw [alookup_notify] at hc2'
    rcases Option.map_eq_some'.mp hc2' with ⟨c0, hc0, hmap⟩
    subst hmap
    rw [notifyCard_status] at hterm2 ⊢
    obtain ⟨hact0, hidx0⟩ := h2 cid2 c0 hc0 hterm2
    refine ⟨hact0, ?_⟩
    rw [notifyCard_lp_name]
    exact hidx0
  · intro i hi
    show alookup (svc.cards.map (fun p => (p.1, notifyCard cfg p.2 now))) i = none
    rw [alookup_notify, h3 i hi]
    rfl

theorem resolve_card_eq (svc : MonitoringService) (cid cid' : Nat) (c : AlertCard)
    (margin : ℚ) (now : ℤ)
    (hidx : alookup svc.lp_to_card c.lp_name = some cid') :
    resolve_card svc cid c margin now =
      { svc with cards := assocSet svc.cards cid (resolveCardFields c margin now), lp_to_card := assocErase svc.lp_to_card c.lp_name } := by
  unfold resolve_card
  dsimp only
  rw [if_pos (show (alookup svc.lp_to_card (resolveCardFields c margin now).lp_name).isSome = true by
    show (alookup svc.lp_to_card c.lp_name).isSome = true
    rw [hidx]
    rfl)]
  rfl

theorem override_card_ok (svc : MonitoringService) (cid : Nat) (sv : String)
    (now : ℤ) (c : AlertCard) (st : AlertStatus) (svc2 : MonitoringService)
    (hcc : alookup svc.cards cid = some c) (hst : statusOfString sv = some st)
    (hok : override_card svc cid sv now = .ok svc2) :
    (¬((st = .completed ∨ st = .overridden) ∧ (alookup svc.lp_to_card c.lp_name).isSome = true) ∧
      svc2 = { svc with cards := assocSet svc.cards cid ((c.set_status st now).add_history now "human" "override") }) ∨
    (((st = .completed ∨ st = .overridden) ∧ (alookup svc.lp_to_card c.lp_name).isSome = true) ∧
      svc2 = { svc with cards := assocSet svc.cards cid ((c.set_status st now).add_history now "human" "override"), lp_to_card := assocErase svc.lp_to_card c.lp_name }) := by
  unfold override_card at hok
  rw [hcc] at hok
  simp only [hst] at hok
  split at hok
  · cases hok
    right
    constructor
    · assumption
    · rfl
  · cases hok
    left
    constructor
    · assumption
    · rfl

theorem targetsIndexed_some (svc : MonitoringService) (cid : Nat) (c : AlertCard)
    (hcc : alookup svc.cards cid = some c) (hs : targetsIndexed svc cid = true) :
    alookup svc.lp_to_card c.lp_name = some cid := by
  unfold targetsIndexed at hs
  rw [hcc] at hs
  exact of_decide_eq_true hs

theorem inv_indexed_active (svc : MonitoringService) (cid : Nat) (c : AlertCard)
    (hInv : RegistryInv svc) (hcc : alookup svc.cards cid = some c)
    (hidx : alookup svc.lp_to_card c.lp_name = some cid) :
    c.status.isActive = true := by
  rcases hInv.1 c.lp_name cid hidx with ⟨cx, hcx, _, hactx⟩
  rw [hcc] at hcx
  cases hcx
  exact hactx

theorem inv_resolve (svc : MonitoringService) (cid : Nat) (c cU : AlertCard)
    (margin : ℚ) (now : ℤ) (hInv : RegistryInv svc)
    (hcc : alookup svc.cards cid = some c)
    (hidx : alookup svc.lp_to_card c.lp_name = some cid)
    (hlpU : cU.lp_name = c.lp_name) :
    RegistryInv (resolve_card svc cid cU margin now) := by
  rw [resolve_card_eq svc cid cid cU margin now (by rw [hlpU]; exact hidx)]
  rw [hlpU]
  exact inv_terminal svc cid c (resolveCardFields cU margin now) hInv hcc hidx hlpU rfl

theorem process_account_inv (cfg : Config) (svc : MonitoringService)
    (acct : Account) (now : ℤ) (hInv : RegistryInv svc) :
    RegistryInv (process_account cfg svc acct now) := by
  unfold process_account
  cases hlp : alookup svc.lp_to_card acct.lp with
  | none =>
    simp only [hlp]
    by_cases htrig : cfg.trigger ≤ acct.marginUtil
    · rw [if_pos htrig]
      exact inv_create cfg svc acct.lp acct.marginUtil acct now hInv hlp
    · rw [if_neg htrig]
      exact hInv
  | some cid =>
    cases hcc : alookup svc.cards cid with
    | none =>
      exfalso
      rcases hInv.1 acct.lp cid hlp with ⟨cx, hcx, _, _⟩
      rw [hcc] at hcx
      cases hcx
    | some c =>
      simp only [hlp, hcc]
      rcases hInv.1 acct.lp cid hlp with ⟨cx, hcx, hlpx, hactx⟩
      rw [hcc] at hcx
      cases hcx
      have hidx : alookup svc.lp_to_card c.lp_name = some cid := by
        rw [hlpx]
        exact hlp
      by_cases htrig : cfg.trigger ≤ acct.marginUtil
      · rw [if_pos htrig]
        by_cases hig : c.status = .ignored ∧ ignoreStillActive c now = true
        · rw [if_pos hig]
          exact inv_update svc cid c _ hInv hcc hidx rfl hactx
        · rw [if_neg hig, if_pos hactx]
          by_cases hexp : c.status = .ignored ∧
              ignoreExpired { c with margin_level := acct.marginUtil, last_margin_snapshot := acct } now = true
          · rw [if_pos hexp]
            exact inv_update svc cid c _ hInv hcc hidx rfl rfl
          · rw [if_neg hexp]
            exact inv_update svc cid c _ hInv hcc hidx rfl hactx
      · rw [if_neg htrig, isActive_not_terminal c.status hactx]
        simp only [Bool.false_eq_true, if_false]
        by_cases hres : acct.marginUtil ≤ cfg.resolve
        · rw [if_pos hres]
          exact inv_resolve svc cid c c acct.marginUtil now hInv hcc hidx rfl
        · rw [if_neg hres]
          exact inv_update svc cid c _ hInv hcc hidx rfl hactx

theorem process_accounts_inv (cfg : Config) (accts : List Account)
    (svc : MonitoringService) (now : ℤ) (hInv : RegistryInv svc) :
    RegistryInv (process_accounts cfg svc accts now) := by
  induction accts generalizing svc with
  | nil => exact hInv
  | cons a rest ih =>
    exact ih (process_account cfg svc a now) (process_account_inv cfg svc a now hInv)

theorem step_inv (cfg : Config) (svc : MonitoringService) (op : Op)
    (hInv : RegistryInv svc) (hsafe : opSafe svc op = true) :
    RegistryInv (stepOp cfg svc op) := by
  cases op with
  | process accts now =>
    exact process_accounts_inv cfg accts svc now hInv
  | notifySweep now =>
    exact inv_notify cfg svc now hInv
  | checkDone cid resp now =>
    simp only [opSafe] at hsafe
    unfold stepOp trigger_margin_check_complete
    cases hcc : alookup svc.cards cid with
    | none =>
      simp only [hcc]
      exact hInv
    | some c =>
      simp only [hcc]
      have hidx := targetsIndexed_some svc cid c hcc hsafe
      have hact := inv_indexed_active svc cid c hInv hcc hidx
      by_cases herr : resp.status = "error"
      · rw [if_pos herr]
        exact inv_update svc cid c _ hInv hcc hidx rfl rfl
      · rw [if_neg herr]
        exact inv_update svc cid c _ hInv hcc hidx rfl hact
  | recheckStart cid now =>
    simp only [opSafe] at hsafe
    unfold stepOp trigger_margin_recheck_start
    cases hcc : alookup svc.cards cid with
    | none =>
      simp only [hcc]
      exact hInv
    | some c =>
      simp only [hcc]
      cases ht : c.thread_id with
      | none => exact hInv
      | some tid =>
        have hidx := targetsIndexed_some svc cid c hcc hsafe
        exact inv_update svc cid c _ hInv hcc hidx rfl rfl
  | recheckDone cid resp latest now =>
    simp only [opSafe] at hsafe
    unfold stepOp trigger_margin_recheck_complete
    cases hcc : alookup svc.cards cid with
    | none =>
      simp only [hcc]
      exact hInv
    | some c =>
      simp only [hcc]
      have hidx := targetsIndexed_some svc cid c hcc hsafe
      have hact := inv_indexed_active svc cid c hInv hcc hidx
      by_cases herr : resp.status = "error"
      · rw [if_pos herr]
        exact inv_update svc cid c _ hInv hcc hidx rfl rfl
      · rw [if_neg herr]
        cases hl : latest with
        | none =>
          split
          · refine inv_resolve svc cid c _ _ now hInv hcc hidx ?_
            rfl
          · exact inv_update svc cid c _ hInv hcc hidx rfl rfl
        | some ls =>
          split
          · refine inv_resolve svc cid c _ _ now hInv hcc hidx ?_
            rfl
          · exact inv_update svc cid c _ hInv hcc hidx rfl rfl
  | feedback cid now =>
    simp only [opSafe] at hsafe
    unfold stepOp submit_hitl_feedback
    cases hcc : alookup svc.cards cid with
    | none =>
      simp only [hcc]
      exact hInv
    | some c =>
      simp only [hcc]
      have hidx := targetsIndexed_some svc cid c hcc hsafe
      cases ht : c.thread_id with
      | none =>
        exact inv_update svc cid c _ hInv hcc hidx rfl rfl
      | some tid =>
        exact inv_update svc cid c _ hInv hcc hidx rfl rfl
  | ignoreOp cid t now =>
    simp only [opSafe] at hsafe
    unfold stepOp ignore_card
    cases hcc : alookup svc.cards cid with
    | none =>
      simp only [hcc]
      exact hInv
    | some c =>
      simp only [hcc]
      have hidx := targetsIndexed_some svc cid c hcc hsafe
      exact inv_update svc cid c _ hInv hcc hidx rfl rfl
  | overrideOp cid sv now =>
    simp only [opSafe, Bool.and_eq_true] at hsafe
    cases hov : override_card svc cid sv now with
    | error e =>
      have hid : stepOp cfg svc (.overrideOp cid sv now) = svc := by
        simp only [stepOp, hov]
      rw [hid]
      exact hInv
    | ok svc2 =>
      have hid : stepOp cfg svc (.overrideOp cid sv now) = svc2 := by
        simp only [stepOp, hov]
      rw [hid]
      cases hcc : alookup svc.cards cid with
      | none =>
        unfold override_card at hov
        rw [hcc] at hov
        cases hov
      | some c =>
        cases hst : statusOfString sv with
        | none =>
          unfold override_card at hov
          rw [hcc] at hov
          simp only [hst] at hov
          cases hov
        | some st =>
          have hidx := targetsIndexed_some svc cid c hcc hsafe.1
          have hnew : st ≠ .new := by
            intro he
            have h2 := of_decide_eq_true hsafe.2
            rw [hst, he] at h2
            exact h2 rfl
          rcases override_card_ok svc cid sv now c st svc2 hcc hst hov with
            ⟨hcond, rfl⟩ | ⟨hcond, rfl⟩
          · have hterm2 : ¬(st = .completed ∨ st = .overridden) := by
              intro h
              exact hcond ⟨h, by rw [hidx]; rfl⟩
            have hact' : st.isActive = true := by
              cases st with
              | new => exact absurd rfl hnew
              | awaitingHITL => rfl
              | pendingRecheck => rfl
              | ignored => rfl
              | completed => exact absurd (Or.inl rfl) hterm2
              | overridden => exact absurd (Or.inr rfl) hterm2
            exact inv_update svc cid c _ hInv hcc hidx rfl hact'
          · have hterm' : ((c.set_status st now).add_history now "human" "override").status.isTerminal = true := by
              rcases hcond.1 with h | h <;> subst h <;> rfl
            exact inv_terminal svc cid c _ hInv hcc hidx rfl hterm'

theorem runOps_inv (cfg : Config) : ∀ (ops : List Op) (svc : MonitoringService),
    RegistryInv svc → safeTrace cfg svc ops = true →
    RegistryInv (runOps cfg svc ops) := by
  intro ops
  induction ops with
  | nil =>
    intro svc h _
    exact h
  | cons op rest ih =>
    intro svc hInv hsafe
    simp only [safeTrace, Bool.and_eq_true] at hsafe
    exact ih (stepOp cfg svc op) (step_inv cfg svc op hInv hsafe.1) hsafe.2

/-- C1 (amended): starting from an empty registry, at most one
non-terminal card exists per LP after any trace of operations in which
every card-scoped operation (dispatch completion, feedback, ignore,
override) targets the LP's currently indexed card and no override sets
the synthetic `new` status.  The unamended claim fails because an
override can revive a terminal, no-longer-indexed card (see the
counterexample). -/
theorem single_active_card_amended (cfg : Config) (ops : List Op)
    (hsafe : safeTrace cfg initService ops = true) :
    SingleActivePerLp (runOps cfg initService ops) := by
  have h0 : RegistryInv initService := by
    refine ⟨?_, ?_, ?_⟩
    · intro lp cid h
      simp [initService, alookup] at h
    · intro cid c h
      simp [initService, alookup] at h
    · intro i _
      rfl
  exact inv_single _ (runOps_inv cfg ops initService h0 hsafe)

theorem single_active_card_amended_witness :
    safeTrace {} initService [Op.process [⟨"LP1", 32, []⟩] 0, Op.ignoreOp 0 50 1,
      Op.process [⟨"LP1", 32, []⟩] 2, Op.overrideOp 0 "completed" 3] = true ∧
    SingleActivePerLp (runOps {} initService [Op.process [⟨"LP1", 32, []⟩] 0,
      Op.ignoreOp 0 50 1, Op.process [⟨"LP1", 32, []⟩] 2,
      Op.overrideOp 0 "completed" 3]) :=
  ⟨by decide, single_active_card_amended {} _ (by decide)⟩
